import Mathlib

/-!
Verification development for the `terraform-provider-valsoperator` repository.

The Go sources (package `internal/provider`) are shallowly embedded below:

* `utils.go` — `GetValsSecret`, `CreateValsSecret`, `GetDbSecret`,
  `CreateDbSecret`: the idempotent get-then-create-or-update logic against the
  dynamic Kubernetes client.
* `valssecret_data_source.go` — the `ValsSecret` typed observed-state shape,
  the provider `Configure` method, and `initializeConfiguration` (the config
  resolver).
* `valssecret_resource.go` and the DbSecret resource file — the desired-state
  (plan) model shapes.

The external Kubernetes client (`dynamic.Interface`) is modelled as an
abstract record of stateful operations; the external `clientcmd` loader and
`restclient.DefaultServerURL` are passed in as parameters, so theorems
quantify over their behaviour where the provider code does not constrain it.
Go maps are modelled as association lists with Go-map assignment semantics
(`mapSet` replaces the binding for an existing key), and
`runtime.DefaultUnstructuredConverter.FromUnstructured` is modelled by the
`decode…` functions: a field absent from the generic document decodes to the
Go zero value of the target field.
-/

namespace ValsOperator

/-! ## Go maps as association lists -/

/-- A Go `map[string]V`, modelled as an association list. The provider only
ever builds maps by repeated assignment and reads them by key lookup, so this
representation, together with `mapSet`/`mapGet`, captures exactly the used
behaviour (iteration order of a Go map is unspecified anyway). -/
abbrev SMap (V : Type) := List (String × V)

/-- Go map assignment `m[k] = v`: replaces the binding of `k` if present,
otherwise appends a new binding. -/
def mapSet {V : Type} : SMap V → String → V → SMap V
  | [], k, v => [(k, v)]
  | (k', v') :: m, k, v =>
      if k' = k then (k, v) :: m else (k', v') :: mapSet m k v

/-- Go map lookup `m[k]`. -/
def mapGet {V : Type} : SMap V → String → Option V
  | [], _ => none
  | (k', v) :: m, k => if k' = k then some v else mapGet m k

/-- The key set of a Go map. -/
def mapKeys {V : Type} (m : SMap V) : List String := m.map (·.1)

/-- Building a map from a list of entries by repeated Go-map assignment,
as the `for _, r := range …` loops in `CreateValsSecret`/`CreateDbSecret` do. -/
def buildMap {α V : Type} (key : α → String) (val : α → V) (l : List α) : SMap V :=
  l.foldl (fun m r => mapSet m (key r) (val r)) []

theorem mapGet_set_self {V : Type} (m : SMap V) (k : String) (v : V) :
    mapGet (mapSet m k v) k = some v := by
  induction m with
  | nil => simp [mapSet, mapGet]
  | cons hd tl ih =>
      obtain ⟨k', v'⟩ := hd
      by_cases h : k' = k
      · simp [mapSet, mapGet, h]
      · simp [mapSet, mapGet, h, ih]

theorem mapGet_set_ne {V : Type} (m : SMap V) {k k' : String} (v : V) (h : k' ≠ k) :
    mapGet (mapSet m k v) k' = mapGet m k' := by
  have hkk : ¬k = k' := fun hh => h hh.symm
  induction m with
  | nil => simp [mapSet, mapGet, hkk]
  | cons hd tl ih =>
      obtain ⟨k₀, v₀⟩ := hd
      by_cases h₀ : k₀ = k
      · subst h₀
        simp [mapSet, mapGet, hkk]
      · simp only [mapSet, if_neg h₀, mapGet, ih]

theorem mem_mapKeys_set {V : Type} (m : SMap V) (k k' : String) (v : V) :
    k' ∈ mapKeys (mapSet m k v) ↔ k' = k ∨ k' ∈ mapKeys m := by
  induction m with
  | nil => simp [mapSet, mapKeys, eq_comm]
  | cons hd tl ih =>
      obtain ⟨k₀, v₀⟩ := hd
      by_cases h₀ : k₀ = k
      · subst h₀
        simp [mapSet, mapKeys, eq_comm]
      · simp only [mapSet, if_neg h₀, mapKeys, List.map_cons, List.mem_cons] at *
        constructor
        · rintro (h | h)
          · exact Or.inr (Or.inl h)
          · rcases ih.mp h with h | h
            · exact Or.inl h
            · exact Or.inr (Or.inr h)
        · rintro (h | h | h)
          · exact Or.inr (ih.mpr (Or.inl h))
          · exact Or.inl h
          · exact Or.inr (ih.mpr (Or.inr h))

theorem mapGet_foldl_of_not_mem {α V : Type} (key : α → String) (val : α → V)
    (l : List α) (m : SMap V) {k : String} (h : ∀ a ∈ l, key a ≠ k) :
    mapGet (l.foldl (fun m r => mapSet m (key r) (val r)) m) k = mapGet m k := by
  induction l generalizing m with
  | nil => rfl
  | cons hd tl ih =>
      simp only [List.foldl_cons]
      rw [ih _ (fun a ha => h a (List.mem_cons_of_mem _ ha))]
      exact mapGet_set_ne m (val hd) (fun hh => h hd (List.mem_cons_self _ _) hh.symm)

theorem mapGet_buildMap_of_mem {α V : Type} (key : α → String) (val : α → V)
    {l : List α} (hnd : (l.map key).Nodup) {a : α} (ha : a ∈ l) :
    mapGet (buildMap key val l) (key a) = some (val a) := by
  suffices h : ∀ m : SMap V,
      mapGet (l.foldl (fun m r => mapSet m (key r) (val r)) m) (key a) = some (val a) from
    h []
  intro m
  induction l generalizing m with
  | nil => cases ha
  | cons hd tl ih =>
      simp only [List.map_cons, List.nodup_cons] at hnd
      rcases List.mem_cons.mp ha with rfl | hmem
      · simp only [List.foldl_cons]
        rw [mapGet_foldl_of_not_mem key val tl _
          (fun b hb hkb => hnd.1 (by rw [← hkb]; exact List.mem_map_of_mem key hb))]
        exact mapGet_set_self m (key a) (val a)
      · exact ih hnd.2 hmem _

theorem mem_mapKeys_foldl {α V : Type} (key : α → String) (val : α → V)
    (l : List α) (m : SMap V) (k : String) :
    k ∈ mapKeys (l.foldl (fun m r => mapSet m (key r) (val r)) m) ↔
      k ∈ l.map key ∨ k ∈ mapKeys m := by
  induction l generalizing m with
  | nil => simp
  | cons hd tl ih =>
      simp only [List.foldl_cons, List.map_cons, List.mem_cons]
      rw [ih]
      rw [mem_mapKeys_set]
      tauto

theorem mem_mapKeys_buildMap {α V : Type} (key : α → String) (val : α → V)
    (l : List α) (k : String) :
    k ∈ mapKeys (buildMap key val l) ↔ k ∈ l.map key := by
  have h := mem_mapKeys_foldl key val l [] k
  simpa [buildMap, mapKeys] using h

/-! ## Kubernetes API errors and identifiers -/

/-- The error classes the provider distinguishes.  `errors.IsNotFound` from
`k8s.io/apimachinery` is the only predicate the source applies to an error;
`alreadyExists`, `conflict` and `transport` cover the remaining outcomes of the
store ops (`transport` also stands for authentication/authorization/network
failures, which the source never inspects). -/
inductive K8sError : Type
  | notFound
  | alreadyExists
  | conflict
  | transport (msg : String)
deriving DecidableEq

/-- `errors.IsNotFound`. -/
def K8sError.isNotFound : K8sError → Bool
  | .notFound => true
  | _ => false

/-- `k8sschema.GroupVersionResource`. -/
structure GroupVersionResource where
  group : String
  version : String
  resource : String
deriving DecidableEq

/-- The GVR used by `GetValsSecret` / `CreateValsSecret` / `DeleteValsSecret`. -/
def valsGVR : GroupVersionResource :=
  { group := "digitalis.io", version := "v1", resource := "valssecrets" }

/-- The GVR used by `GetDbSecret` / `CreateDbSecret` / `DeleteDbSecret`. -/
def dbGVR : GroupVersionResource :=
  { group := "digitalis.io", version := "v1beta1", resource := "dbsecrets" }

/-! ## Desired-state (plan) models

From `valssecret_resource.go` and the DbSecret resource file.  The framework
types (`types.String`, `types.Int64`, `types.Bool`) are modelled by their
`ValueString`/`ValueInt64`/`ValueBool` results (null values read as the zero
value, which is what the Go accessors return). -/

/-- `ValsSecretReference` (`valssecret_resource.go`). -/
structure ValsSecretReference where
  name : String
  ref : String
  encoding : String
deriving DecidableEq

/-- `ValsSecretTemplate` (`valssecret_resource.go`). -/
structure ValsSecretTemplate where
  name : String
  value : String
deriving DecidableEq

/-- `ValsSecretResourceModel` (`valssecret_resource.go`). -/
structure ValsSecretResourceModel where
  name : String
  nspace : String
  secretRef : List ValsSecretReference
  template : List ValsSecretTemplate
  type : String
  ttl : Int
deriving DecidableEq

/-- `TfDbRolloutTarget` (DbSecret resource file). -/
structure TfDbRolloutTarget where
  kind : String
  name : String
deriving DecidableEq

/-- `DbSecretTemplate` (DbSecret resource file). -/
structure DbSecretTemplate where
  name : String
  value : String
deriving DecidableEq

/-- `DbSecretResourceModel` (DbSecret resource file). -/
structure DbSecretResourceModel where
  name : String
  nspace : String
  vaultRole : String
  vaultMount : String
  template : List DbSecretTemplate
  renew : Bool
  rollout : List TfDbRolloutTarget
deriving DecidableEq

/-! ## Generic documents (`unstructured.Unstructured`)

The provider only ever builds and reads documents of the two fixed shapes
below, so the untyped `map[string]interface{}` is embedded as a typed record
whose optional fields are `Option`s (`none` = key absent from the map). -/

/-- The value stored under a `data` entry of a ValsSecret spec:
`{"ref": …, "encoding": …}`. -/
structure GenericDataSource where
  ref : String
  encoding : String
deriving DecidableEq

/-- The `spec` payload of a ValsSecret generic document. -/
structure GenericValsSpec where
  name : Option String
  data : Option (SMap GenericDataSource)
  ttl : Option Int
  type : Option String
  template : Option (SMap String)
deriving DecidableEq

/-- A ValsSecret generic document: apiVersion/kind stamp, metadata
(name, namespace, optional resourceVersion) and spec. -/
structure ValsDoc where
  apiVersion : String
  kind : String
  mName : String
  mNamespace : String
  resourceVersion : Option String
  spec : GenericValsSpec
deriving DecidableEq

/-- `unstructured.Unstructured.SetResourceVersion`: an empty version removes
the `metadata.resourceVersion` key, a non-empty one sets it. -/
def ValsDoc.setResourceVersion (d : ValsDoc) (v : String) : ValsDoc :=
  if v = "" then { d with resourceVersion := none }
  else { d with resourceVersion := some v }

/-- `vault: {role, mount}` of a DbSecret spec. -/
structure GenericDbVault where
  role : String
  mount : String
deriving DecidableEq

/-- A `rollout` entry of a DbSecret spec: `{"name": …, "kind": …}`. -/
structure GenericRollout where
  name : String
  kind : String
deriving DecidableEq

/-- The `spec` payload of a DbSecret generic document. -/
structure GenericDbSpec where
  vault : Option GenericDbVault
  template : Option (SMap String)
  rollout : Option (List GenericRollout)
deriving DecidableEq

/-- A DbSecret generic document. -/
structure DbDoc where
  apiVersion : String
  kind : String
  mName : String
  mNamespace : String
  resourceVersion : Option String
  spec : GenericDbSpec
deriving DecidableEq

/-- `SetResourceVersion` on a DbSecret document. -/
def DbDoc.setResourceVersion (d : DbDoc) (v : String) : DbDoc :=
  if v = "" then { d with resourceVersion := none }
  else { d with resourceVersion := some v }

/-! ## Observed-state models and decoding

`ValsSecret` is from `valssecret_data_source.go`.  Decoding a generic document
models `runtime.DefaultUnstructuredConverter.FromUnstructured`: an absent
field decodes to the Go zero value of the target field (0 for `int64`, `""`
for `string`, the empty map for map fields). -/

/-- The decoded `metav1.ObjectMeta` fields the provider reads
(`GetName`, `GetNamespace`, `GetResourceVersion`). -/
structure ObjectMeta where
  name : String
  nspace : String
  resourceVersion : String
deriving DecidableEq

/-- `ValsSecretSpec` (`valssecret_data_source.go`).  `Databases` is carried
along for shape fidelity; the provider never writes it, so a document built by
`CreateValsSecret` always decodes it to the empty list. -/
structure ValsSecretSpec where
  name : String
  data : SMap GenericDataSource
  ttl : Int
  type : String
  databases : List String
  template : SMap String
deriving DecidableEq

/-- `ValsSecret` (`valssecret_data_source.go`): object metadata plus spec
(the empty `Status` is omitted). -/
structure ValsSecret where
  meta : ObjectMeta
  spec : ValsSecretSpec
deriving DecidableEq

def ValsSecret.GetName (s : ValsSecret) : String := s.meta.name

def ValsSecret.GetNamespace (s : ValsSecret) : String := s.meta.nspace

def ValsSecret.GetResourceVersion (s : ValsSecret) : String := s.meta.resourceVersion

/-- `FromUnstructured` on the spec payload: absent fields become zero values.
No defaulting to `3600`/`"Opaque"` happens here — the converter is a plain
reflection-based field copy. -/
def decodeValsSecretSpec (g : GenericValsSpec) : ValsSecretSpec :=
  { name := g.name.getD ""
    data := g.data.getD []
    ttl := g.ttl.getD 0
    type := g.type.getD ""
    databases := []
    template := g.template.getD [] }

/-- `FromUnstructured` of a whole ValsSecret document into `*ValsSecret`. -/
def decodeValsSecret (d : ValsDoc) : ValsSecret :=
  { meta := { name := d.mName, nspace := d.mNamespace
              resourceVersion := d.resourceVersion.getD "" }
    spec := decodeValsSecretSpec d.spec }

/-- Modelled from the spec: the `DbSecret` Go struct (the observed-state shape
for the database-credential kind) is declared outside the provided source
files; only its uses appear (`GetName`, `GetResourceVersion`, `GetNamespace`,
`.Name`).  Following §3/§6 of the spec it mirrors `ValsSecret`: standard
object metadata plus a spec with `vault {role, mount}`, `template` and
`rollout`. -/
structure DbSecretSpec where
  vault : GenericDbVault
  template : SMap String
  rollout : List GenericRollout
deriving DecidableEq

/-- Modelled from the spec: the decoded `DbSecret` observed-state struct
(see `DbSecretSpec`). -/
structure DbSecret where
  meta : ObjectMeta
  spec : DbSecretSpec
deriving DecidableEq

def DbSecret.GetName (s : DbSecret) : String := s.meta.name

def DbSecret.GetNamespace (s : DbSecret) : String := s.meta.nspace

def DbSecret.GetResourceVersion (s : DbSecret) : String := s.meta.resourceVersion

/-- `FromUnstructured` of a DbSecret document (absent fields → zero values). -/
def decodeDbSecret (d : DbDoc) : DbSecret :=
  { meta := { name := d.mName, nspace := d.mNamespace
              resourceVersion := d.resourceVersion.getD "" }
    spec := { vault := d.spec.vault.getD { role := "", mount := "" }
              template := d.spec.template.getD []
              rollout := d.spec.rollout.getD [] } }

/-! ## Document construction (`CreateValsSecret` / `CreateDbSecret` lines
building `obj`)

`obj.SetGroupVersionKind(gkr)` re-stamps `apiVersion`/`kind` with exactly the
values already placed in the map literal, so it is a no-op and is folded into
the construction. -/

/-- The `refs` map built by the `for _, r := range plan.SecretRef` loop. -/
def buildRefs (l : List ValsSecretReference) : SMap GenericDataSource :=
  buildMap (·.name) (fun r => { ref := r.ref, encoding := r.encoding }) l

/-- The `templates` map built by the `for _, r := range plan.Template` loop. -/
def buildTemplates (l : List ValsSecretTemplate) : SMap String :=
  buildMap (·.name) (·.value) l

/-- The ValsSecret document `obj` built by `CreateValsSecret`. -/
def buildValsObj (plan : ValsSecretResourceModel) : ValsDoc :=
  { apiVersion := "digitalis.io/v1"
    kind := "ValsSecret"
    mName := plan.name
    mNamespace := plan.nspace
    resourceVersion := none
    spec := { name := some plan.name
              ttl := some plan.ttl
              type := some plan.type
              data := some (buildRefs plan.secretRef)
              template := some (buildTemplates plan.template) } }

/-- The `templates` map built by the DbSecret template loop. -/
def buildDbTemplates (l : List DbSecretTemplate) : SMap String :=
  buildMap (·.name) (·.value) l

/-- The `rollouts` slice built by the `for _, r := range plan.Rollout` loop
(a JSON array: order preserved). -/
def buildRollouts (l : List TfDbRolloutTarget) : List GenericRollout :=
  l.map (fun r => { name := r.name, kind := r.kind })

/-- The DbSecret document `obj` built by `CreateDbSecret`. -/
def buildDbObj (plan : DbSecretResourceModel) : DbDoc :=
  { apiVersion := "digitalis.io/v1beta1"
    kind := "DbSecret"
    mName := plan.name
    mNamespace := plan.nspace
    resourceVersion := none
    spec := { vault := some { role := plan.vaultRole, mount := plan.vaultMount }
              template := some (buildDbTemplates plan.template)
              rollout := some (buildRollouts plan.rollout) } }

/-! ## The dynamic client and the upsert functions (`utils.go`)

`dynamic.Interface` is modelled as a record of stateful operations over an
abstract client/store state `σ` (the namespaced resource interface
`client.Resource(gvr).Namespace(ns)` is flattened into explicit `gvr`/`ns`
arguments).  Each embedded provider function additionally returns the list of
store calls it performed, so that "calls create", "never calls update" and
"exactly one get" are statable.  A Go `(value, error)` return pair is kept as
a pair `Option value × Option K8sError` (`none` = nil pointer / nil error). -/

/-- The operations of `dynamic.Interface` used by the provider, over documents
of type `Doc` and client state `σ`. -/
structure DynClient (σ Doc : Type) where
  get : σ → GroupVersionResource → String → String → (Except K8sError Doc) × σ
  create : σ → GroupVersionResource → String → Doc → (Except K8sError Doc) × σ
  update : σ → GroupVersionResource → String → Doc → (Except K8sError Doc) × σ

/-- One store call, as recorded in a trace.  `getC ns name`,
`createC ns doc`, `updateC ns doc`. -/
inductive ClientCall (Doc : Type) : Type
  | getC (ns name : String)
  | createC (ns : String) (doc : Doc)
  | updateC (ns : String) (doc : Doc)
deriving DecidableEq

/-- `GetValsSecret(ctx, client, secretName, namespace)`: a dynamic get on
`valsGVR` followed by `FromUnstructured`, returning `(nil, err)` on a get
error and `(secret, nil)` on success. -/
def GetValsSecret {σ : Type} (c : DynClient σ ValsDoc) (st : σ)
    (secretName ns : String) : (Option ValsSecret × Option K8sError) × σ :=
  match c.get st valsGVR ns secretName with
  | (.error e, st') => ((none, some e), st')
  | (.ok obj, st') => ((some (decodeValsSecret obj), none), st')

/-- `CreateValsSecret(ctx, client, plan)` (`utils.go` lines 57–134): build the
document, get the current object; propagate non-NotFound get errors; create
when the object is absent (nil or empty name), otherwise copy the observed
resourceVersion onto the document and update; finally decode the local
document `obj` (as the source does — the create/update responses are not
decoded) into the returned `*ValsSecret`. -/
def CreateValsSecret {σ : Type} (c : DynClient σ ValsDoc) (st : σ)
    (plan : ValsSecretResourceModel) :
    (Option ValsSecret × Option K8sError) × σ × List (ClientCall ValsDoc) :=
  let obj := buildValsObj plan
  let getEv : ClientCall ValsDoc := .getC plan.nspace plan.name
  match GetValsSecret c st plan.name plan.nspace with
  | ((secret, err), st1) =>
    let createBranch : Option ValsSecret →
        (Option ValsSecret × Option K8sError) × σ × List (ClientCall ValsDoc) :=
      fun secret0 =>
        match c.create st1 valsGVR plan.nspace obj with
        | (.error e, st2) =>
            ((secret0, some e), st2, [getEv, .createC plan.nspace obj])
        | (.ok _out, st2) =>
            ((some (decodeValsSecret obj), none), st2,
              [getEv, .createC plan.nspace obj])
    let updateBranch : ValsSecret →
        (Option ValsSecret × Option K8sError) × σ × List (ClientCall ValsDoc) :=
      fun s =>
        let obj2 := obj.setResourceVersion s.GetResourceVersion
        match c.update st1 valsGVR plan.nspace obj2 with
        | (.error e, st2) =>
            ((some s, some e), st2, [getEv, .updateC plan.nspace obj2])
        | (.ok _out, st2) =>
            ((some (decodeValsSecret obj2), none), st2,
              [getEv, .updateC plan.nspace obj2])
    match err with
    | some e =>
        if e.isNotFound then createBranch secret
        else ((secret, some e), st1, [getEv])
    | none =>
        match secret with
        | none => createBranch none
        | some s => if s.GetName = "" then createBranch (some s) else updateBranch s

/-- `GetDbSecret(ctx, client, secretName, namespace)`. -/
def GetDbSecret {σ : Type} (c : DynClient σ DbDoc) (st : σ)
    (secretName ns : String) : (Option DbSecret × Option K8sError) × σ :=
  match c.get st dbGVR ns secretName with
  | (.error e, st') => ((none, some e), st')
  | (.ok obj, st') => ((some (decodeDbSecret obj), none), st')

/-- `CreateDbSecret(ctx, client, plan)` (`utils.go` lines 184–260); same
structure as `CreateValsSecret` over the DbSecret kind. -/
def CreateDbSecret {σ : Type} (c : DynClient σ DbDoc) (st : σ)
    (plan : DbSecretResourceModel) :
    (Option DbSecret × Option K8sError) × σ × List (ClientCall DbDoc) :=
  let obj := buildDbObj plan
  let getEv : ClientCall DbDoc := .getC plan.nspace plan.name
  match GetDbSecret c st plan.name plan.nspace with
  | ((dbsecret, err), st1) =>
    let createBranch : Option DbSecret →
        (Option DbSecret × Option K8sError) × σ × List (ClientCall DbDoc) :=
      fun secret0 =>
        match c.create st1 dbGVR plan.nspace obj with
        | (.error e, st2) =>
            ((secret0, some e), st2, [getEv, .createC plan.nspace obj])
        | (.ok _out, st2) =>
            ((some (decodeDbSecret obj), none), st2,
              [getEv, .createC plan.nspace obj])
    let updateBranch : DbSecret →
        (Option DbSecret × Option K8sError) × σ × List (ClientCall DbDoc) :=
      fun s =>
        let obj2 := obj.setResourceVersion s.GetResourceVersion
        match c.update st1 dbGVR plan.nspace obj2 with
        | (.error e, st2) =>
            ((some s, some e), st2, [getEv, .updateC plan.nspace obj2])
        | (.ok _out, st2) =>
            ((some (decodeDbSecret obj2), none), st2,
              [getEv, .updateC plan.nspace obj2])
    match err with
    | some e =>
        if e.isNotFound then createBranch dbsecret
        else ((dbsecret, some e), st1, [getEv])
    | none =>
        match dbsecret with
        | none => createBranch none
        | some s => if s.GetName = "" then createBranch (some s) else updateBranch s

/-! ## A concrete versioned store

Used to settle the sequential-idempotence claim: a store that keeps one
document per `(namespace, name)` identity, assigns fresh version tokens from a
counter, and implements the standard get/create/update contract (NotFound,
AlreadyExists, optimistic-concurrency Conflict). -/

/-- The state of the concrete store. -/
structure ValsStore where
  objs : List ((String × String) × ValsDoc)
  counter : Nat
deriving DecidableEq

/-- Lookup by `(namespace, name)` key. -/
def storeLookup : List ((String × String) × ValsDoc) → (String × String) → Option ValsDoc
  | [], _ => none
  | (k, d) :: t, key => if k = key then some d else storeLookup t key

/-- Remove the entry for a key. -/
def storeErase (l : List ((String × String) × ValsDoc)) (key : String × String) :
    List ((String × String) × ValsDoc) :=
  l.filter (fun p => p.1 ≠ key)

/-- The store-backed client: get returns the stored document; create fails
with AlreadyExists on an occupied identity and otherwise stores the document
with a fresh version token; update requires the incoming token to match the
stored one (Conflict otherwise) and bumps the token. -/
def valsStoreClient : DynClient ValsStore ValsDoc where
  get := fun s _ ns name =>
    match storeLookup s.objs (ns, name) with
    | some d => (.ok d, s)
    | none => (.error .notFound, s)
  create := fun s _ ns d =>
    match storeLookup s.objs (ns, d.mName) with
    | some _ => (.error .alreadyExists, s)
    | none =>
        let stored := { d with resourceVersion := some (toString s.counter) }
        (.ok stored, { objs := ((ns, d.mName), stored) :: s.objs, counter := s.counter + 1 })
  update := fun s _ ns d =>
    match storeLookup s.objs (ns, d.mName) with
    | none => (.error .notFound, s)
    | some cur =>
        if d.resourceVersion = cur.resourceVersion then
          let stored := { d with resourceVersion := some (toString s.counter) }
          (.ok stored,
            { objs := ((ns, d.mName), stored) :: storeErase s.objs (ns, d.mName)
              counter := s.counter + 1 })
        else (.error .conflict, s)

/-- The empty store. -/
def emptyValsStore : ValsStore := { objs := [], counter := 0 }

/-! ## Configuration resolution (`valssecret_data_source.go`:
`initializeConfiguration` and `Configure`)

External collaborators are passed in as parameters:
* `expand` models `homedir.Expand`;
* `parse` models `restclient.DefaultServerURL` (the returned string is
  `host.String()`);
* `load` models `clientcmd.NewNonInteractiveDeferredLoadingClientConfig(loader,
  overrides).ClientConfig()`;
* `env` is `os.Getenv("KUBE_CONFIG_PATHS")` and `sep` the platform list
  separator of `filepath.SplitList`;
* `render` models `attr.Value.String()` on a list element.
The ambient context argument carries no information and is dropped. -/

/-- `ValsOperatorProviderModel`, with each framework value replaced by its
`ValueString`/`ValueBool` result and the two ignore lists by their element
lists (`Elements()`); the unused `exec`/`experiments` blocks are omitted. -/
structure ValsOperatorProviderModel where
  host : String
  username : String
  password : String
  insecure : Bool
  tlsServerName : String
  clientCertificate : String
  clientKey : String
  clusterCACertificate : String
  configPaths : List String
  configPath : String
  configContext : String
  configContextAuthInfo : String
  configContextCluster : String
  token : String
  proxyURL : String
  ignoreAnnotationsCfg : List String
  ignoreLabelsCfg : List String
deriving DecidableEq

/-- `clientcmd.ClientConfigLoadingRules` (the two fields the source sets). -/
structure ClientConfigLoadingRules where
  explicitPath : String
  precedence : List String
deriving DecidableEq

/-- `clientcmd.ConfigOverrides` (the fields the source sets;
`[]byte` data fields are modelled as strings, empty = unset). -/
structure ConfigOverrides where
  currentContext : String
  contextAuthInfo : String
  contextCluster : String
  insecureSkipTLSVerify : Bool
  tlsServerName : String
  certificateAuthorityData : String
  clientCertificateData : String
  server : String
  username : String
  password : String
  clientKeyData : String
  token : String
  proxyURL : String
deriving DecidableEq

/-- The zero `ConfigOverrides` value (`&clientcmd.ConfigOverrides{}`). -/
def emptyOverrides : ConfigOverrides :=
  { currentContext := "", contextAuthInfo := "", contextCluster := ""
    insecureSkipTLSVerify := false, tlsServerName := ""
    certificateAuthorityData := "", clientCertificateData := "", server := ""
    username := "", password := "", clientKeyData := "", token := ""
    proxyURL := "" }

/-- The zero `ClientConfigLoadingRules` value
(`&clientcmd.ClientConfigLoadingRules{}`): no explicit paths, so the loader's
own default discovery applies. -/
def emptyLoadingRules : ClientConfigLoadingRules :=
  { explicitPath := "", precedence := [] }

/-- The resolved `restclient.Config`, restricted to the fields the provider
reads or writes (`Host` via logging/merge, `UserAgent` set in `Configure`);
all other connection material is behind the abstract `load`. -/
structure RestConfig where
  hostURL : String
  userAgent : String
deriving DecidableEq

/-- `restclient.Config{}` — the empty configuration substituted by
`Configure` when `initializeConfiguration` yields no config. -/
def emptyRestConfig : RestConfig := { hostURL := "", userAgent := "" }

/-- `filepath.SplitList`: the empty string splits to no entries, otherwise
split on the platform list separator. -/
def splitList (p : String) (sep : Char) : List String :=
  if p = "" then [] else p.splitOn sep.toString

/-- The `configPaths` selection (`initializeConfiguration` lines 680–692):
an explicit `config_path` wins, else a non-empty `config_paths` list, else a
non-empty `KUBE_CONFIG_PATHS` environment value split into entries, else none. -/
def selectConfigPaths (d : ValsOperatorProviderModel) (env : String) (sep : Char) :
    List String :=
  if d.configPath ≠ "" then [d.configPath]
  else if d.configPaths.length > 0 then d.configPaths
  else if env ≠ "" then splitList env sep
  else []

/-- The expansion loop (lines 695–704): `homedir.Expand` each selected path,
propagating the first failure. -/
def expandPaths (expand : String → Except String String) :
    List String → Except String (List String)
  | [] => .ok []
  | p :: ps =>
      match expand p with
      | .error e => .error e
      | .ok q =>
          match expandPaths expand ps with
          | .error e => .error e
          | .ok qs => .ok (q :: qs)

/-- Lines 706–710: a single expanded path becomes the loader's exact
`ExplicitPath`; two or more become the ordered `Precedence` list. -/
def buildLoadingRules (expandedPaths : List String) : ClientConfigLoadingRules :=
  match expandedPaths with
  | [p] => { explicitPath := p, precedence := [] }
  | ps => { explicitPath := "", precedence := ps }

/-- The loading rules produced by `initializeConfiguration`: selection,
expansion, then `buildLoadingRules` — but only when at least one path was
selected; otherwise the loader keeps its zero value. -/
def resolvedLoader (d : ValsOperatorProviderModel) (env : String) (sep : Char)
    (expand : String → Except String String) :
    Except String ClientConfigLoadingRules :=
  let configPaths := selectConfigPaths d env sep
  if configPaths.length > 0 then
    match expandPaths expand configPaths with
    | .error e => .error e
    | .ok expandedPaths => .ok (buildLoadingRules expandedPaths)
  else .ok emptyLoadingRules

/-- The context/cluster/auth-info overrides (lines 712–735), applied only
inside the `len(configPaths) > 0` block. -/
def applyContextOverrides (d : ValsOperatorProviderModel) (o : ConfigOverrides) :
    ConfigOverrides :=
  if d.configContext ≠ "" ∨ d.configContextAuthInfo ≠ "" ∨ d.configContextCluster ≠ "" then
    let o1 := if d.configContext ≠ "" then { o with currentContext := d.configContext } else o
    let o2 := { o1 with contextAuthInfo := "", contextCluster := "" }
    let o3 := if d.configContextAuthInfo ≠ "" then
        { o2 with contextAuthInfo := d.configContextAuthInfo } else o2
    if d.configContextCluster ≠ "" then
      { o3 with contextCluster := d.configContextCluster } else o3
  else o

/-- The static overlays before the host step (lines 739–747):
insecure-skip-verify, TLS server name, CA bundle, client certificate. -/
def applyPreHostOverrides (d : ValsOperatorProviderModel) (o : ConfigOverrides) :
    ConfigOverrides :=
  let o1 := { o with insecureSkipTLSVerify := d.insecure }
  let o2 := if d.tlsServerName ≠ "" then { o1 with tlsServerName := d.tlsServerName } else o1
  let o3 := if d.clusterCACertificate ≠ "" then
      { o2 with certificateAuthorityData := d.clusterCACertificate } else o2
  if d.clientCertificate ≠ "" then
    { o3 with clientCertificateData := d.clientCertificate } else o3

/-- The host overlay (lines 749–763): when an explicit host is supplied,
derive the default-TLS flag from the already-overlaid CA bundle, client
certificate and insecure flag, parse via `DefaultServerURL`, and fail with a
configuration error if parsing fails. -/
def applyHostOverride (d : ValsOperatorProviderModel)
    (parse : String → Bool → Except String String) (o : ConfigOverrides) :
    Except String ConfigOverrides :=
  if d.host ≠ "" then
    let defaultTLS : Bool := decide (o.certificateAuthorityData ≠ "" ∨
      o.clientCertificateData ≠ "" ∨ o.insecureSkipTLSVerify = true)
    match parse d.host defaultTLS with
    | .error e => .error ("failed to parse host: " ++ e)
    | .ok h => .ok { o with server := h }
  else .ok o

/-- The static overlays after the host step (lines 764–788): username,
password, client key, bearer token, proxy URL (the `exec` block is commented
out in the source). -/
def applyPostHostOverrides (d : ValsOperatorProviderModel) (o : ConfigOverrides) :
    ConfigOverrides :=
  let o1 := if d.username ≠ "" then { o with username := d.username } else o
  let o2 := if d.password ≠ "" then { o1 with password := d.password } else o1
  let o3 := if d.clientKey ≠ "" then { o2 with clientKeyData := d.clientKey } else o2
  let o4 := if d.token ≠ "" then { o3 with token := d.token } else o3
  if d.proxyURL ≠ "" then { o4 with proxyURL := d.proxyURL } else o4

/-- `initializeConfiguration(ctx, d)`: path selection and expansion, context
overrides (only when paths were selected), the fixed static overlay order,
then the deferred client-config load.  A load failure is logged and swallowed:
the function returns `(nil, nil)` — modelled as `.ok none`. -/
def initializeConfiguration (d : ValsOperatorProviderModel) (env : String) (sep : Char)
    (expand : String → Except String String)
    (parse : String → Bool → Except String String)
    (load : ClientConfigLoadingRules → ConfigOverrides → Except String RestConfig) :
    Except String (Option RestConfig) :=
  match resolvedLoader d env sep expand with
  | .error e => .error e
  | .ok loader =>
    let configPaths := selectConfigPaths d env sep
    let o0 := if configPaths.length > 0 then applyContextOverrides d emptyOverrides
              else emptyOverrides
    let o1 := applyPreHostOverrides d o0
    match applyHostOverride d parse o1 with
    | .error e => .error e
    | .ok o2 =>
      let o3 := applyPostHostOverrides d o2
      match load loader o3 with
      | .error _ => .ok none
      | .ok cfg => .ok (some cfg)

/-- The client-sets bag built by `Configure` (the fields relevant to the
claims: the rest config and the two ignore lists). -/
structure KubeClientsetsModel where
  config : RestConfig
  ignoreAnnotationsList : List String
  ignoreLabelsList : List String
deriving DecidableEq

/-- `Configure` (lines 513–567): resolve the configuration (diagnostics error
on failure — modelled as `none`), substitute `&restclient.Config{}` when
resolution yielded no config, stamp the user agent, then build the ignore
lists — both the `ignore_annotations` and the `ignore_labels` elements are
appended to `ignoreAnnotations`, and `ignoreLabels` keeps its initial empty
value. -/
def Configure (d : ValsOperatorProviderModel) (env : String) (sep : Char)
    (expand : String → Except String String)
    (parse : String → Bool → Except String String)
    (load : ClientConfigLoadingRules → ConfigOverrides → Except String RestConfig)
    (terraformVersion : String) (render : String → String) :
    Option KubeClientsetsModel :=
  match initializeConfiguration d env sep expand parse load with
  | .error _ => none
  | .ok cfgOpt =>
    let cfg := match cfgOpt with
      | none => emptyRestConfig
      | some c => c
    let cfg1 := { cfg with userAgent := "HashiCorp/1.0 Terraform/" ++ terraformVersion }
    let anns0 : List String := []
    let anns1 := anns0 ++ d.ignoreAnnotationsCfg.map render
    let anns2 := anns1 ++ d.ignoreLabelsCfg.map render
    some { config := cfg1, ignoreAnnotationsList := anns2, ignoreLabelsList := [] }

/-- Modelled from the spec: the external `clientcmd` deferred client config
(`NewNonInteractiveDeferredLoadingClientConfig(...).ClientConfig()`) is no
code of this repository; per §4.1 steps 2–3 of the spec, explicit override
fields supersede the values from the selected credential file's
current-context.  This instance loads from a file whose current-context
points at `fileHost` and applies the server override. -/
def loadFromFileHost (fileHost : String) :
    ClientConfigLoadingRules → ConfigOverrides → Except String RestConfig :=
  fun _ o => .ok { hostURL := if o.server ≠ "" then o.server else fileHost, userAgent := "" }

/-! ## Sample inputs and simple clients used by witnesses -/

/-- A concrete ValsSecret plan. -/
def samplePlan : ValsSecretResourceModel :=
  { name := "example", nspace := "default"
    secretRef := [{ name := "username", ref := "ref+vault://secret/data/db#user", encoding := "" }]
    template := [{ name := "CONFIG", value := "user={{ .username }}" }]
    type := "Opaque", ttl := 3600 }

/-- A concrete DbSecret plan (the end-to-end scenario of §8 of the spec). -/
def sampleDbPlan : DbSecretResourceModel :=
  { name := "example", nspace := "default", vaultRole := "role", vaultMount := "cass000"
    template := [{ name := "CASSANDRA_USERNAME", value := "{{ .username }}" }]
    renew := true
    rollout := [{ kind := "Deployment", name := "my-app" }] }

/-- A stateless client whose get always returns `r`; create and update echo
their argument. -/
def constValsClient (r : Except K8sError ValsDoc) : DynClient Unit ValsDoc where
  get := fun s _ _ _ => (r, s)
  create := fun s _ _ d => (.ok d, s)
  update := fun s _ _ d => (.ok d, s)

/-- The DbSecret analogue of `constValsClient`. -/
def constDbClient (r : Except K8sError DbDoc) : DynClient Unit DbDoc where
  get := fun s _ _ _ => (r, s)
  create := fun s _ _ d => (.ok d, s)
  update := fun s _ _ d => (.ok d, s)

/-- A ValsSecret generic document whose spec omits both `ttl` and `type`. -/
def noTtlTypeDoc : ValsDoc :=
  { apiVersion := "digitalis.io/v1", kind := "ValsSecret"
    mName := "example", mNamespace := "default", resourceVersion := some "41"
    spec := { name := some "example"
              data := some [("username", { ref := "ref+vault://secret/data/db#user", encoding := "" })]
              ttl := none, type := none, template := none } }

/-! ## C3 — decode defaulting -/

/-- C3 counterexample: decoding a secret-reference document whose spec omits
`ttl` and `type` yields the Go zero values `ttl = 0` and `type = ""`, not the
claimed defaults `3600` and `"Opaque"`. -/
theorem decode_omitted_fields_counterexample :
    (decodeValsSecret noTtlTypeDoc).spec.ttl = 0 ∧
    (decodeValsSecret noTtlTypeDoc).spec.type = "" ∧
    ¬((decodeValsSecret noTtlTypeDoc).spec.ttl = 3600 ∧
      (decodeValsSecret noTtlTypeDoc).spec.type = "Opaque") := by
  refine ⟨rfl, rfl, ?_⟩
  intro h
  exact absurd h.1 (by decide)

/-- C3 (amended): for every secret-reference generic document whose spec
omits the `ttl` and `type` fields, the read path (`GetValsSecret`) decodes it
without failing, but into the Go zero values `ttl = 0` and `type = ""`; the
`3600`/`"Opaque"` defaults are applied by the resource plan schema, not by
decoding. -/
theorem decode_omitted_fields_zero_values {σ : Type} (c : DynClient σ ValsDoc)
    (st : σ) (secretName ns : String) (d : ValsDoc)
    (hget : (c.get st valsGVR ns secretName).1 = .ok d)
    (httl : d.spec.ttl = none) (htype : d.spec.type = none) :
    (GetValsSecret c st secretName ns).1 =
      (some (decodeValsSecret d), none) ∧
    (decodeValsSecret d).spec.ttl = 0 ∧
    (decodeValsSecret d).spec.type = "" := by
  rcases hp : c.get st valsGVR ns secretName with ⟨r, st2⟩
  rw [hp] at hget
  simp only at hget
  subst hget
  refine ⟨?_, ?_, ?_⟩
  · simp [GetValsSecret, hp]
  · simp [decodeValsSecret, decodeValsSecretSpec, httl]
  · simp [decodeValsSecret, decodeValsSecretSpec, htype]

/-- Witness for `decode_omitted_fields_zero_values` at `noTtlTypeDoc`. -/
theorem decode_omitted_fields_zero_values_witness :
    (GetValsSecret (constValsClient (.ok noTtlTypeDoc)) () "example" "default").1 =
      (some (decodeValsSecret noTtlTypeDoc), none) ∧
    (decodeValsSecret noTtlTypeDoc).spec.ttl = 0 ∧
    (decodeValsSecret noTtlTypeDoc).spec.type = "" :=
  decode_omitted_fields_zero_values (constValsClient (.ok noTtlTypeDoc)) ()
    "example" "default" noTtlTypeDoc rfl rfl rfl

/-! ## C6 — encode/decode round trip -/

/-- C6: for every desired-state secret-reference plan (with the entry names
of each list pairwise distinct, as a map-valued input presupposes), decoding
the document built by `CreateValsSecret` reproduces the scalar fields
(`name`, `ttl`, `type`), and for each map-typed field (`data`, `template`)
exactly the key set and the per-key values of the input; only the order of
the list-derived entries can differ. -/
theorem encode_decode_roundtrip (plan : ValsSecretResourceModel)
    (hnd : (plan.secretRef.map (·.name)).Nodup)
    (hnt : (plan.template.map (·.name)).Nodup) :
    (decodeValsSecretSpec (buildValsObj plan).spec).name = plan.name ∧
    (decodeValsSecretSpec (buildValsObj plan).spec).ttl = plan.ttl ∧
    (decodeValsSecretSpec (buildValsObj plan).spec).type = plan.type ∧
    (∀ r ∈ plan.secretRef,
      mapGet (decodeValsSecretSpec (buildValsObj plan).spec).data r.name =
        some { ref := r.ref, encoding := r.encoding }) ∧
    (∀ k, k ∈ mapKeys (decodeValsSecretSpec (buildValsObj plan).spec).data ↔
      k ∈ plan.secretRef.map (·.name)) ∧
    (∀ t ∈ plan.template,
      mapGet (decodeValsSecretSpec (buildValsObj plan).spec).template t.name =
        some t.value) ∧
    (∀ k, k ∈ mapKeys (decodeValsSecretSpec (buildValsObj plan).spec).template ↔
      k ∈ plan.template.map (·.name)) := by
  refine ⟨rfl, rfl, rfl, ?_, ?_, ?_, ?_⟩
  · intro r hr
    simpa [decodeValsSecretSpec, buildValsObj, buildRefs] using
      mapGet_buildMap_of_mem (·.name)
        (fun r : ValsSecretReference =>
          ({ ref := r.ref, encoding := r.encoding } : GenericDataSource))
        hnd hr
  · intro k
    simpa [decodeValsSecretSpec, buildValsObj, buildRefs] using
      mem_mapKeys_buildMap (·.name)
        (fun r : ValsSecretReference => ({ ref := r.ref, encoding := r.encoding } : GenericDataSource))
        plan.secretRef k
  · intro t ht
    simpa [decodeValsSecretSpec, buildValsObj, buildTemplates] using
      mapGet_buildMap_of_mem (·.name) (·.value) hnt ht
  · intro k
    simpa [decodeValsSecretSpec, buildValsObj, buildTemplates] using
      mem_mapKeys_buildMap (·.name) (fun t : ValsSecretTemplate => t.value) plan.template k

/-- Witness for `encode_decode_roundtrip` at `samplePlan`. -/
theorem encode_decode_roundtrip_witness :
    (decodeValsSecretSpec (buildValsObj samplePlan).spec).name = "example" ∧
    (decodeValsSecretSpec (buildValsObj samplePlan).spec).ttl = 3600 ∧
    (decodeValsSecretSpec (buildValsObj samplePlan).spec).type = "Opaque" ∧
    mapGet (decodeValsSecretSpec (buildValsObj samplePlan).spec).data "username" =
      some { ref := "ref+vault://secret/data/db#user", encoding := "" } ∧
    mapGet (decodeValsSecretSpec (buildValsObj samplePlan).spec).template "CONFIG" =
      some "user={{ .username }}" := by
  obtain ⟨h1, h2, h3, h4, _, h6, _⟩ :=
    encode_decode_roundtrip samplePlan (by decide) (by decide)
  refine ⟨h1, h2, h3, ?_, ?_⟩
  · simpa using h4 { name := "username", ref := "ref+vault://secret/data/db#user", encoding := "" }
      (by simp [samplePlan])
  · simpa using h6 { name := "CONFIG", value := "user={{ .username }}" }
      (by simp [samplePlan])

/-! ## C10 — Configure's ignore lists -/

/-- C10: every client-sets bag produced by `Configure` carries an empty
`IgnoreLabels` list, and its `IgnoreAnnotations` list is the rendered
`ignore_annotations` elements followed by the rendered `ignore_labels`
elements (the label patterns are appended to the annotations ignore list). -/
theorem configure_ignore_lists (d : ValsOperatorProviderModel) (env : String)
    (sep : Char) (expand : String → Except String String)
    (parse : String → Bool → Except String String)
    (load : ClientConfigLoadingRules → ConfigOverrides → Except String RestConfig)
    (terraformVersion : String) (render : String → String)
    (m : KubeClientsetsModel)
    (h : Configure d env sep expand parse load terraformVersion render = some m) :
    m.ignoreLabelsList = [] ∧
    m.ignoreAnnotationsList =
      d.ignoreAnnotationsCfg.map render ++ d.ignoreLabelsCfg.map render := by
  unfold Configure at h
  rcases hi : initializeConfiguration d env sep expand parse load with e | cfgOpt
  · rw [hi] at h
    simp at h
  · rw [hi] at h
    simp only [List.nil_append] at h
    obtain rfl := (Option.some_injective _ h.symm)
    exact ⟨rfl, rfl⟩

/-- A concrete provider configuration with one annotation-ignore and one
label-ignore pattern and nothing else set. -/
def sampleProviderModel : ValsOperatorProviderModel :=
  { host := "", username := "", password := "", insecure := false
    tlsServerName := "", clientCertificate := "", clientKey := ""
    clusterCACertificate := "", configPaths := [], configPath := ""
    configContext := "", configContextAuthInfo := "", configContextCluster := ""
    token := "", proxyURL := ""
    ignoreAnnotationsCfg := ["^ann[.]io/"], ignoreLabelsCfg := ["^lab[.]io/"] }

/-- The client-sets bag `Configure` produces for `sampleProviderModel` (the
loader fails, so the empty rest config is substituted). -/
def sampleClientsets : KubeClientsetsModel :=
  { config := { hostURL := "", userAgent := "HashiCorp/1.0 Terraform/1.9.0" }
    ignoreAnnotationsList := ["^ann[.]io/", "^lab[.]io/"]
    ignoreLabelsList := [] }

/-- Witness for `configure_ignore_lists` at `sampleProviderModel`. -/
theorem configure_ignore_lists_witness :
    Configure sampleProviderModel "" ':' (fun p => .ok p) (fun h _ => .ok h)
      (fun _ _ => .error "no file") "1.9.0" id = some sampleClientsets ∧
    sampleClientsets.ignoreLabelsList = [] ∧
    sampleClientsets.ignoreAnnotationsList =
      sampleProviderModel.ignoreAnnotationsCfg.map id ++
        sampleProviderModel.ignoreLabelsCfg.map id := by
  have h : Configure sampleProviderModel "" ':' (fun p => .ok p) (fun h _ => .ok h)
      (fun _ _ => .error "no file") "1.9.0" id = some sampleClientsets := by decide
  exact ⟨h, configure_ignore_lists sampleProviderModel "" ':' (fun p => .ok p)
    (fun h _ => .ok h) (fun _ _ => .error "no file") "1.9.0" id sampleClientsets h⟩

/-! ## C1 — get-error discipline of the upsert -/

/-- C1: for every upsert invocation (`CreateValsSecret` or `CreateDbSecret`),
if the initial get returns a NotFound error the function performs exactly one
get and one create — the create receiving the freshly built document — and
never calls update; if the get returns any other error, that error is
returned unchanged and neither create nor update is attempted. -/
theorem upsert_get_error_discipline
    {σ₁ σ₂ : Type} (c₁ : DynClient σ₁ ValsDoc) (st₁ : σ₁) (p₁ : ValsSecretResourceModel)
    (c₂ : DynClient σ₂ DbDoc) (st₂ : σ₂) (p₂ : DbSecretResourceModel)
    (e₁ e₂ : K8sError)
    (h₁ : (c₁.get st₁ valsGVR p₁.nspace p₁.name).1 = .error e₁)
    (h₂ : (c₂.get st₂ dbGVR p₂.nspace p₂.name).1 = .error e₂) :
    ((e₁.isNotFound = true →
        (CreateValsSecret c₁ st₁ p₁).2.2 =
          [.getC p₁.nspace p₁.name, .createC p₁.nspace (buildValsObj p₁)]) ∧
      (e₁.isNotFound = false →
        (CreateValsSecret c₁ st₁ p₁).1 = (none, some e₁) ∧
        (CreateValsSecret c₁ st₁ p₁).2.2 = [.getC p₁.nspace p₁.name])) ∧
    ((e₂.isNotFound = true →
        (CreateDbSecret c₂ st₂ p₂).2.2 =
          [.getC p₂.nspace p₂.name, .createC p₂.nspace (buildDbObj p₂)]) ∧
      (e₂.isNotFound = false →
        (CreateDbSecret c₂ st₂ p₂).1 = (none, some e₂) ∧
        (CreateDbSecret c₂ st₂ p₂).2.2 = [.getC p₂.nspace p₂.name])) := by
  rcases hp₁ : c₁.get st₁ valsGVR p₁.nspace p₁.name with ⟨r₁, sx₁⟩
  rw [hp₁] at h₁
  simp only at h₁
  subst h₁
  rcases hp₂ : c₂.get st₂ dbGVR p₂.nspace p₂.name with ⟨r₂, sx₂⟩
  rw [hp₂] at h₂
  simp only at h₂
  subst h₂
  constructor
  · constructor
    · intro hnf
      simp only [CreateValsSecret, GetValsSecret, hp₁, hnf, if_true]
      rcases hc : c₁.create sx₁ valsGVR p₁.nspace (buildValsObj p₁) with ⟨rc, sy⟩
      cases rc <;> simp [hc]
    · intro hnf
      simp [CreateValsSecret, GetValsSecret, hp₁, hnf]
  · constructor
    · intro hnf
      simp only [CreateDbSecret, GetDbSecret, hp₂, hnf, if_true]
      rcases hc : c₂.create sx₂ dbGVR p₂.nspace (buildDbObj p₂) with ⟨rc, sy⟩
      cases rc <;> simp [hc]
    · intro hnf
      simp [CreateDbSecret, GetDbSecret, hp₂, hnf]

/-- Witness for `upsert_get_error_discipline`: a NotFound get on both kinds
yields exactly a get followed by a create of the built document. -/
theorem upsert_get_error_discipline_witness :
    (CreateValsSecret (constValsClient (.error .notFound)) () samplePlan).2.2 =
      [.getC "default" "example", .createC "default" (buildValsObj samplePlan)] ∧
    (CreateDbSecret (constDbClient (.error .notFound)) () sampleDbPlan).2.2 =
      [.getC "default" "example", .createC "default" (buildDbObj sampleDbPlan)] := by
  obtain ⟨⟨hv, _⟩, ⟨hd, _⟩⟩ :=
    upsert_get_error_discipline (constValsClient (.error .notFound)) () samplePlan
      (constDbClient (.error .notFound)) () sampleDbPlan .notFound .notFound rfl rfl
  exact ⟨hv rfl, hd rfl⟩

/-! ## C4 — version-token discipline -/

/-- Recognizes an update call in a trace. -/
def isUpdateCall {Doc : Type} : ClientCall Doc → Bool
  | .updateC _ _ => true
  | _ => false

/-- C4: when the initial get succeeds and returns an existing object (non-empty
name, non-empty version token), update is called with exactly the version
token copied from that get result — in particular never with an empty or
client-fabricated token — and when the get returned NotFound, no update call
occurs at all.  Stated for both `CreateValsSecret` and `CreateDbSecret`. -/
theorem upsert_version_token_discipline
    {σ₁ σ₂ σ₃ σ₄ : Type}
    (c₁ : DynClient σ₁ ValsDoc) (st₁ : σ₁) (p₁ : ValsSecretResourceModel)
    (d₁ : ValsDoc) (rv₁ : String)
    (h₁ : (c₁.get st₁ valsGVR p₁.nspace p₁.name).1 = .ok d₁)
    (hn₁ : d₁.mName ≠ "") (hv₁ : d₁.resourceVersion = some rv₁) (hrv₁ : rv₁ ≠ "")
    (c₂ : DynClient σ₂ DbDoc) (st₂ : σ₂) (p₂ : DbSecretResourceModel)
    (d₂ : DbDoc) (rv₂ : String)
    (h₂ : (c₂.get st₂ dbGVR p₂.nspace p₂.name).1 = .ok d₂)
    (hn₂ : d₂.mName ≠ "") (hv₂ : d₂.resourceVersion = some rv₂) (hrv₂ : rv₂ ≠ "")
    (c₃ : DynClient σ₃ ValsDoc) (st₃ : σ₃) (p₃ : ValsSecretResourceModel)
    (h₃ : (c₃.get st₃ valsGVR p₃.nspace p₃.name).1 = .error .notFound)
    (c₄ : DynClient σ₄ DbDoc) (st₄ : σ₄) (p₄ : DbSecretResourceModel)
    (h₄ : (c₄.get st₄ dbGVR p₄.nspace p₄.name).1 = .error .notFound) :
    ((CreateValsSecret c₁ st₁ p₁).2.2 =
        [.getC p₁.nspace p₁.name,
         .updateC p₁.nspace ((buildValsObj p₁).setResourceVersion rv₁)] ∧
      ((buildValsObj p₁).setResourceVersion rv₁).resourceVersion = some rv₁) ∧
    ((CreateDbSecret c₂ st₂ p₂).2.2 =
        [.getC p₂.nspace p₂.name,
         .updateC p₂.nspace ((buildDbObj p₂).setResourceVersion rv₂)] ∧
      ((buildDbObj p₂).setResourceVersion rv₂).resourceVersion = some rv₂) ∧
    ((CreateValsSecret c₃ st₃ p₃).2.2.any isUpdateCall = false) ∧
    ((CreateDbSecret c₄ st₄ p₄).2.2.any isUpdateCall = false) := by
  rcases hp₁ : c₁.get st₁ valsGVR p₁.nspace p₁.name with ⟨r₁, sx₁⟩
  rw [hp₁] at h₁
  simp only at h₁
  subst h₁
  rcases hp₂ : c₂.get st₂ dbGVR p₂.nspace p₂.name with ⟨r₂, sx₂⟩
  rw [hp₂] at h₂
  simp only at h₂
  subst h₂
  rcases hp₃ : c₃.get st₃ valsGVR p₃.nspace p₃.name with ⟨r₃, sx₃⟩
  rw [hp₃] at h₃
  simp only at h₃
  subst h₃
  rcases hp₄ : c₄.get st₄ dbGVR p₄.nspace p₄.name with ⟨r₄, sx₄⟩
  rw [hp₄] at h₄
  simp only at h₄
  subst h₄
  refine ⟨⟨?_, ?_⟩, ⟨?_, ?_⟩, ?_, ?_⟩
  · simp only [CreateValsSecret, GetValsSecret, hp₁]
    rw [if_neg (by simpa [decodeValsSecret, ValsSecret.GetName] using hn₁)]
    have hr : (decodeValsSecret d₁).GetResourceVersion = rv₁ := by
      simp [decodeValsSecret, ValsSecret.GetResourceVersion, hv₁]
    rw [hr]
    rcases hu : c₁.update sx₁ valsGVR p₁.nspace ((buildValsObj p₁).setResourceVersion rv₁)
      with ⟨ru, sy⟩
    cases ru <;> simp [hu]
  · simp [ValsDoc.setResourceVersion, hrv₁]
  · simp only [CreateDbSecret, GetDbSecret, hp₂]
    rw [if_neg (by simpa [decodeDbSecret, DbSecret.GetName] using hn₂)]
    have hr : (decodeDbSecret d₂).GetResourceVersion = rv₂ := by
      simp [decodeDbSecret, DbSecret.GetResourceVersion, hv₂]
    rw [hr]
    rcases hu : c₂.update sx₂ dbGVR p₂.nspace ((buildDbObj p₂).setResourceVersion rv₂)
      with ⟨ru, sy⟩
    cases ru <;> simp [hu]
  · simp [DbDoc.setResourceVersion, hrv₂]
  · simp only [CreateValsSecret, GetValsSecret, hp₃, K8sError.isNotFound, if_true]
    rcases hc : c₃.create sx₃ valsGVR p₃.nspace (buildValsObj p₃) with ⟨rc, sy⟩
    cases rc <;> simp [hc, isUpdateCall]
  · simp only [CreateDbSecret, GetDbSecret, hp₄, K8sError.isNotFound, if_true]
    rcases hc : c₄.create sx₄ dbGVR p₄.nspace (buildDbObj p₄) with ⟨rc, sy⟩
    cases rc <;> simp [hc, isUpdateCall]

/-- A DbSecret generic document as stored remotely, with version token `"7"`. -/
def sampleStoredDbDoc : DbDoc :=
  { apiVersion := "digitalis.io/v1beta1", kind := "DbSecret"
    mName := "example", mNamespace := "default", resourceVersion := some "7"
    spec := { vault := some { role := "role", mount := "cass000" }
              template := none, rollout := none } }

/-- Witness for `upsert_version_token_discipline`: `noTtlTypeDoc` carries name
`"example"` and version token `"41"`; the NotFound runs perform no update. -/
theorem upsert_version_token_discipline_witness :
    (CreateValsSecret (constValsClient (.ok noTtlTypeDoc)) () samplePlan).2.2 =
      [.getC "default" "example",
       .updateC "default" ((buildValsObj samplePlan).setResourceVersion "41")] ∧
    (CreateDbSecret (constDbClient (.error .notFound)) () sampleDbPlan).2.2.any
      isUpdateCall = false := by
  obtain ⟨⟨hv, _⟩, _, _, hd⟩ :=
    upsert_version_token_discipline
      (constValsClient (.ok noTtlTypeDoc)) () samplePlan noTtlTypeDoc "41"
      rfl (by decide) rfl (by decide)
      (constDbClient (.ok sampleStoredDbDoc)) ()
      sampleDbPlan sampleStoredDbDoc "7" rfl (by decide) rfl (by decide)
      (constValsClient (.error .notFound)) () samplePlan rfl
      (constDbClient (.error .notFound)) () sampleDbPlan rfl
  exact ⟨hv, hd⟩

/-! ## C2 — what the upsert returns on success -/

/-- A client that reports NotFound on get and answers create/update with the
submitted document carrying a server-assigned version token — as a real API
server does. -/
def respValsClient : DynClient Unit ValsDoc where
  get := fun s _ _ _ => (.error .notFound, s)
  create := fun s _ _ d => (.ok (d.setResourceVersion "srv-1"), s)
  update := fun s _ _ d => (.ok (d.setResourceVersion "srv-2"), s)

/-- C2 counterexample: against `respValsClient` the create branch succeeds and
the store's response is the submitted document with version token `"srv-1"`,
but the value `CreateValsSecret` returns is not that response decoded — the
source decodes the local `obj` (the create response `out` is only logged). -/
theorem upsert_returns_store_response_counterexample :
    (CreateValsSecret respValsClient () samplePlan).1.2 = none ∧
    (respValsClient.create () valsGVR "default" (buildValsObj samplePlan)).1 =
      .ok ((buildValsObj samplePlan).setResourceVersion "srv-1") ∧
    (CreateValsSecret respValsClient () samplePlan).1.1 ≠
      some (decodeValsSecret ((buildValsObj samplePlan).setResourceVersion "srv-1")) := by
  refine ⟨rfl, rfl, ?_⟩
  decide

/-- C2 (amended): on success of either branch of an upsert, the value
returned is the locally built document decoded — on the update branch with
the version token copied from the get result — while the store's response
document is discarded (not decoded into the result). -/
theorem upsert_returns_local_document
    {σ₁ σ₂ σ₃ σ₄ : Type}
    (c₁ : DynClient σ₁ ValsDoc) (st₁ : σ₁) (p₁ : ValsSecretResourceModel) (out₁ : ValsDoc)
    (h₁ : (c₁.get st₁ valsGVR p₁.nspace p₁.name).1 = .error .notFound)
    (hc₁ : (c₁.create (c₁.get st₁ valsGVR p₁.nspace p₁.name).2 valsGVR p₁.nspace
      (buildValsObj p₁)).1 = .ok out₁)
    (c₂ : DynClient σ₂ ValsDoc) (st₂ : σ₂) (p₂ : ValsSecretResourceModel)
    (d₂ out₂ : ValsDoc)
    (h₂ : (c₂.get st₂ valsGVR p₂.nspace p₂.name).1 = .ok d₂) (hn₂ : d₂.mName ≠ "")
    (hu₂ : (c₂.update (c₂.get st₂ valsGVR p₂.nspace p₂.name).2 valsGVR p₂.nspace
      ((buildValsObj p₂).setResourceVersion (d₂.resourceVersion.getD ""))).1 = .ok out₂)
    (c₃ : DynClient σ₃ DbDoc) (st₃ : σ₃) (p₃ : DbSecretResourceModel) (out₃ : DbDoc)
    (h₃ : (c₃.get st₃ dbGVR p₃.nspace p₃.name).1 = .error .notFound)
    (hc₃ : (c₃.create (c₃.get st₃ dbGVR p₃.nspace p₃.name).2 dbGVR p₃.nspace
      (buildDbObj p₃)).1 = .ok out₃)
    (c₄ : DynClient σ₄ DbDoc) (st₄ : σ₄) (p₄ : DbSecretResourceModel)
    (d₄ out₄ : DbDoc)
    (h₄ : (c₄.get st₄ dbGVR p₄.nspace p₄.name).1 = .ok d₄) (hn₄ : d₄.mName ≠ "")
    (hu₄ : (c₄.update (c₄.get st₄ dbGVR p₄.nspace p₄.name).2 dbGVR p₄.nspace
      ((buildDbObj p₄).setResourceVersion (d₄.resourceVersion.getD ""))).1 = .ok out₄) :
    (CreateValsSecret c₁ st₁ p₁).1 =
      (some (decodeValsSecret (buildValsObj p₁)), none) ∧
    (CreateValsSecret c₂ st₂ p₂).1 =
      (some (decodeValsSecret
        ((buildValsObj p₂).setResourceVersion (d₂.resourceVersion.getD ""))), none) ∧
    (CreateDbSecret c₃ st₃ p₃).1 =
      (some (decodeDbSecret (buildDbObj p₃)), none) ∧
    (CreateDbSecret c₄ st₄ p₄).1 =
      (some (decodeDbSecret
        ((buildDbObj p₄).setResourceVersion (d₄.resourceVersion.getD ""))), none) := by
  refine ⟨?_, ?_, ?_, ?_⟩
  · rcases hp : c₁.get st₁ valsGVR p₁.nspace p₁.name with ⟨r, sx⟩
    rw [hp] at h₁ hc₁
    simp only at h₁ hc₁
    subst h₁
    rcases hc : c₁.create sx valsGVR p₁.nspace (buildValsObj p₁) with ⟨rc, sy⟩
    rw [hc] at hc₁
    simp only at hc₁
    subst hc₁
    simp [CreateValsSecret, GetValsSecret, hp, hc, K8sError.isNotFound]
  · rcases hp : c₂.get st₂ valsGVR p₂.nspace p₂.name with ⟨r, sx⟩
    rw [hp] at h₂ hu₂
    simp only at h₂ hu₂
    subst h₂
    simp only [CreateValsSecret, GetValsSecret, hp]
    rw [if_neg (by simpa [decodeValsSecret, ValsSecret.GetName] using hn₂)]
    have hr : (decodeValsSecret d₂).GetResourceVersion = d₂.resourceVersion.getD "" := by
      simp [decodeValsSecret, ValsSecret.GetResourceVersion]
    rw [hr]
    rcases hu : c₂.update sx valsGVR p₂.nspace
        ((buildValsObj p₂).setResourceVersion (d₂.resourceVersion.getD "")) with ⟨ru, sy⟩
    rw [hu] at hu₂
    simp only at hu₂
    subst hu₂
    simp [hu]
  · rcases hp : c₃.get st₃ dbGVR p₃.nspace p₃.name with ⟨r, sx⟩
    rw [hp] at h₃ hc₃
    simp only at h₃ hc₃
    subst h₃
    rcases hc : c₃.create sx dbGVR p₃.nspace (buildDbObj p₃) with ⟨rc, sy⟩
    rw [hc] at hc₃
    simp only at hc₃
    subst hc₃
    simp [CreateDbSecret, GetDbSecret, hp, hc, K8sError.isNotFound]
  · rcases hp : c₄.get st₄ dbGVR p₄.nspace p₄.name with ⟨r, sx⟩
    rw [hp] at h₄ hu₄
    simp only at h₄ hu₄
    subst h₄
    simp only [CreateDbSecret, GetDbSecret, hp]
    rw [if_neg (by simpa [decodeDbSecret, DbSecret.GetName] using hn₄)]
    have hr : (decodeDbSecret d₄).GetResourceVersion = d₄.resourceVersion.getD "" := by
      simp [decodeDbSecret, DbSecret.GetResourceVersion]
    rw [hr]
    rcases hu : c₄.update sx dbGVR p₄.nspace
        ((buildDbObj p₄).setResourceVersion (d₄.resourceVersion.getD "")) with ⟨ru, sy⟩
    rw [hu] at hu₄
    simp only at hu₄
    subst hu₄
    simp [hu]

/-- Witness for `upsert_returns_local_document` with `respValsClient` (create
branch), `constValsClient`/`constDbClient` (update branches) and a NotFound
DbSecret create. -/
theorem upsert_returns_local_document_witness :
    (CreateValsSecret respValsClient () samplePlan).1 =
      (some (decodeValsSecret (buildValsObj samplePlan)), none) ∧
    (CreateValsSecret (constValsClient (.ok noTtlTypeDoc)) () samplePlan).1 =
      (some (decodeValsSecret ((buildValsObj samplePlan).setResourceVersion "41")), none) ∧
    (CreateDbSecret (constDbClient (.error .notFound)) () sampleDbPlan).1 =
      (some (decodeDbSecret (buildDbObj sampleDbPlan)), none) ∧
    (CreateDbSecret (constDbClient (.ok sampleStoredDbDoc)) () sampleDbPlan).1 =
      (some (decodeDbSecret ((buildDbObj sampleDbPlan).setResourceVersion "7")), none) := by
  obtain ⟨hv1, hv2, hd1, hd2⟩ :=
    upsert_returns_local_document
      respValsClient () samplePlan ((buildValsObj samplePlan).setResourceVersion "srv-1")
        rfl rfl
      (constValsClient (.ok noTtlTypeDoc)) () samplePlan noTtlTypeDoc
        ((buildValsObj samplePlan).setResourceVersion "41")
        rfl (by decide) rfl
      (constDbClient (.error .notFound)) () sampleDbPlan (buildDbObj sampleDbPlan)
        rfl rfl
      (constDbClient (.ok sampleStoredDbDoc)) () sampleDbPlan sampleStoredDbDoc
        ((buildDbObj sampleDbPlan).setResourceVersion "7")
        rfl (by decide) rfl
  exact ⟨hv1, hv2, hd1, hd2⟩

/-! ## C5 — applying the same spec twice -/

/-- The document held by the store for plan `p` under version token `v`:
the built document with a server-assigned resourceVersion. -/
def storedValsDoc (p : ValsSecretResourceModel) (v : String) : ValsDoc :=
  { apiVersion := "digitalis.io/v1", kind := "ValsSecret"
    mName := p.name, mNamespace := p.nspace
    resourceVersion := some v
    spec := (buildValsObj p).spec }

/-- C5 counterexample: applying `samplePlan` twice in sequence against the
versioned store does not return the same decoded value both times — the
second result carries the version token copied from the get, the first none. -/
theorem sequential_apply_counterexample :
    (CreateValsSecret valsStoreClient
        (CreateValsSecret valsStoreClient emptyValsStore samplePlan).2.1 samplePlan).1 ≠
      (CreateValsSecret valsStoreClient emptyValsStore samplePlan).1 := by
  decide

/-- C5 (amended): applying the same desired-state spec twice in sequence,
starting from a store without the object, succeeds both times, the second
call takes the update branch and never create, and the two observed decoded
states agree on the spec and on the identity — they differ only in the
metadata version token (absent after the first call, the store's token after
the second). -/
theorem sequential_apply_update_branch (p : ValsSecretResourceModel)
    (hname : p.name ≠ "") :
    (CreateValsSecret valsStoreClient
        (CreateValsSecret valsStoreClient emptyValsStore p).2.1 p).2.2 =
      [.getC p.nspace p.name,
       .updateC p.nspace ((buildValsObj p).setResourceVersion "0")] ∧
    (CreateValsSecret valsStoreClient emptyValsStore p).1 =
      (some (decodeValsSecret (buildValsObj p)), none) ∧
    (CreateValsSecret valsStoreClient
        (CreateValsSecret valsStoreClient emptyValsStore p).2.1 p).1 =
      (some (decodeValsSecret ((buildValsObj p).setResourceVersion "0")), none) ∧
    (decodeValsSecret ((buildValsObj p).setResourceVersion "0")).spec =
      (decodeValsSecret (buildValsObj p)).spec ∧
    (decodeValsSecret ((buildValsObj p).setResourceVersion "0")).meta.name =
      (decodeValsSecret (buildValsObj p)).meta.name ∧
    (decodeValsSecret ((buildValsObj p).setResourceVersion "0")).meta.nspace =
      (decodeValsSecret (buildValsObj p)).meta.nspace ∧
    (decodeValsSecret (buildValsObj p)).meta.resourceVersion = "" ∧
    (decodeValsSecret ((buildValsObj p).setResourceVersion "0")).meta.resourceVersion =
      "0" := by
  have hrun1 : CreateValsSecret valsStoreClient emptyValsStore p =
      ((some (decodeValsSecret (buildValsObj p)), none),
        { objs := [((p.nspace, p.name), storedValsDoc p "0")], counter := 1 },
        [.getC p.nspace p.name, .createC p.nspace (buildValsObj p)]) := rfl
  have hlook : storeLookup [((p.nspace, p.name), storedValsDoc p "0")]
      (p.nspace, p.name) = some (storedValsDoc p "0") := by
    simp [storeLookup]
  have hget2 : valsStoreClient.get
      { objs := [((p.nspace, p.name), storedValsDoc p "0")], counter := 1 }
      valsGVR p.nspace p.name =
      (.ok (storedValsDoc p "0"),
        { objs := [((p.nspace, p.name), storedValsDoc p "0")], counter := 1 }) := by
    simp only [valsStoreClient]
    rw [hlook]
  have hset : (buildValsObj p).setResourceVersion "0" = storedValsDoc p "0" := rfl
  have hname2 : ¬(decodeValsSecret (storedValsDoc p "0")).GetName = "" := by
    simpa [decodeValsSecret, ValsSecret.GetName, storedValsDoc] using hname
  have hrv : (decodeValsSecret (storedValsDoc p "0")).GetResourceVersion = "0" := by
    simp [decodeValsSecret, ValsSecret.GetResourceVersion, storedValsDoc]
  have hm : (storedValsDoc p "0").mName = p.name := rfl
  have hupd : valsStoreClient.update
      { objs := [((p.nspace, p.name), storedValsDoc p "0")], counter := 1 }
      valsGVR p.nspace (storedValsDoc p "0") =
      (.ok (storedValsDoc p "1"),
        { objs := [((p.nspace, p.name), storedValsDoc p "1")], counter := 2 }) := by
    simp only [valsStoreClient]
    rw [hm, hlook]
    have ht1 : toString (1 : Nat) = "1" := rfl
    simp [storedValsDoc, storeErase, ht1]
  have hrun2 : CreateValsSecret valsStoreClient
      { objs := [((p.nspace, p.name), storedValsDoc p "0")], counter := 1 } p =
      ((some (decodeValsSecret ((buildValsObj p).setResourceVersion "0")), none),
        { objs := [((p.nspace, p.name), storedValsDoc p "1")], counter := 2 },
        [.getC p.nspace p.name,
         .updateC p.nspace ((buildValsObj p).setResourceVersion "0")]) := by
    simp only [CreateValsSecret, GetValsSecret, hget2]
    rw [if_neg hname2, hrv, hset, hupd]
  rw [hrun1]
  simp only [hrun2]
  rw [hset]
  simp [decodeValsSecret, decodeValsSecretSpec, buildValsObj, storedValsDoc]

/-- Witness for `sequential_apply_update_branch` at `samplePlan`. -/
theorem sequential_apply_update_branch_witness :
    (CreateValsSecret valsStoreClient
        (CreateValsSecret valsStoreClient emptyValsStore samplePlan).2.1 samplePlan).2.2 =
      [.getC "default" "example",
       .updateC "default" ((buildValsObj samplePlan).setResourceVersion "0")] ∧
    (decodeValsSecret ((buildValsObj samplePlan).setResourceVersion "0")).spec =
      (decodeValsSecret (buildValsObj samplePlan)).spec := by
  obtain ⟨h1, _, _, h4, _⟩ := sequential_apply_update_branch samplePlan (by decide)
  exact ⟨h1, h4⟩

/-! ## C7 — credential-file selection precedence -/

theorem expandPaths_ok (ex : String → String) (l : List String) :
    expandPaths (fun p => .ok (ex p)) l = .ok (l.map ex) := by
  induction l with
  | nil => rfl
  | cons hd tl ih => simp [expandPaths, ih]

/-- A provider configuration whose only setting is a singleton
`config_paths` list. -/
def singletonPathsModel : ValsOperatorProviderModel :=
  { host := "", username := "", password := "", insecure := false
    tlsServerName := "", clientCertificate := "", clientKey := ""
    clusterCACertificate := "", configPaths := ["one"], configPath := ""
    configContext := "", configContextAuthInfo := "", configContextCluster := ""
    token := "", proxyURL := "", ignoreAnnotationsCfg := [], ignoreLabelsCfg := [] }

/-- C7 counterexample: a singleton `config_paths` list is not used as an
ordered search precedence — the loader receives it as the exact
`ExplicitPath` and its precedence list stays empty. -/
theorem config_paths_singleton_counterexample :
    resolvedLoader singletonPathsModel "" ':' (fun p => .ok p) =
      .ok { explicitPath := "one", precedence := [] } ∧
    ¬({ explicitPath := "one", precedence := [] } :
        ClientConfigLoadingRules).precedence = ["one"] := by
  exact ⟨rfl, by decide⟩

/-- C7 (amended): credential-file selection follows this precedence: a
non-empty `config_path` is selected alone and used as the exact file; else a
`config_paths` list with at least two entries is used as the ordered search
precedence, while a singleton `config_paths` list is used as the exact file
(same loader treatment as `config_path`); else a non-empty `KUBE_CONFIG_PATHS`
environment value contributes its separator-split entries; else no path is
selected and the loader keeps its zero value, deferring to its own default
discovery. -/
theorem credential_path_selection (d : ValsOperatorProviderModel) (env : String)
    (sep : Char) (ex : String → String) :
    (d.configPath ≠ "" →
      selectConfigPaths d env sep = [d.configPath] ∧
      resolvedLoader d env sep (fun p => .ok (ex p)) =
        .ok { explicitPath := ex d.configPath, precedence := [] }) ∧
    (d.configPath = "" → 2 ≤ d.configPaths.length →
      selectConfigPaths d env sep = d.configPaths ∧
      resolvedLoader d env sep (fun p => .ok (ex p)) =
        .ok { explicitPath := "", precedence := d.configPaths.map ex }) ∧
    (∀ q, d.configPath = "" → d.configPaths = [q] →
      resolvedLoader d env sep (fun p => .ok (ex p)) =
        .ok { explicitPath := ex q, precedence := [] }) ∧
    (d.configPath = "" → d.configPaths = [] → env ≠ "" →
      selectConfigPaths d env sep = splitList env sep) ∧
    (d.configPath = "" → d.configPaths = [] → env = "" →
      selectConfigPaths d env sep = [] ∧
      resolvedLoader d env sep (fun p => .ok (ex p)) = .ok emptyLoadingRules) := by
  refine ⟨?_, ?_, ?_, ?_, ?_⟩
  · intro h
    constructor
    · simp [selectConfigPaths, h]
    · simp [resolvedLoader, selectConfigPaths, h, expandPaths_ok, buildLoadingRules]
  · intro h1 h2
    rcases hl : d.configPaths with _ | ⟨a, _ | ⟨b, t⟩⟩
    · rw [hl] at h2; simp at h2
    · rw [hl] at h2; simp at h2
    · constructor
      · simp [selectConfigPaths, h1, hl]
      · simp [resolvedLoader, selectConfigPaths, h1, hl, expandPaths_ok, buildLoadingRules]
  · intro q h1 h2
    simp [resolvedLoader, selectConfigPaths, h1, h2, expandPaths_ok, buildLoadingRules]
  · intro h1 h2 h3
    simp [selectConfigPaths, h1, h2, h3]
  · intro h1 h2 h3
    constructor
    · simp [selectConfigPaths, h1, h2, h3]
    · simp [resolvedLoader, selectConfigPaths, h1, h2, h3]

/-- A provider configuration whose only setting is `config_path`. -/
def explicitPathModel : ValsOperatorProviderModel :=
  { host := "", username := "", password := "", insecure := false
    tlsServerName := "", clientCertificate := "", clientKey := ""
    clusterCACertificate := "", configPaths := [], configPath := "/root/kubeconfig"
    configContext := "", configContextAuthInfo := "", configContextCluster := ""
    token := "", proxyURL := "", ignoreAnnotationsCfg := [], ignoreLabelsCfg := [] }

/-- A provider configuration with a two-entry `config_paths` list. -/
def multiPathsModel : ValsOperatorProviderModel :=
  { host := "", username := "", password := "", insecure := false
    tlsServerName := "", clientCertificate := "", clientKey := ""
    clusterCACertificate := "", configPaths := ["a", "b"], configPath := ""
    configContext := "", configContextAuthInfo := "", configContextCluster := ""
    token := "", proxyURL := "", ignoreAnnotationsCfg := [], ignoreLabelsCfg := [] }

/-- Witness for `credential_path_selection` at an explicit `config_path` and
at a two-entry `config_paths` list. -/
theorem credential_path_selection_witness :
    resolvedLoader explicitPathModel "" ':' (fun p => .ok p) =
      .ok { explicitPath := "/root/kubeconfig", precedence := [] } ∧
    resolvedLoader multiPathsModel "" ':' (fun p => .ok p) =
      .ok { explicitPath := "", precedence := ["a", "b"] } := by
  refine ⟨?_, ?_⟩
  · exact ((credential_path_selection explicitPathModel "" ':' (fun s => s)).1
      (by decide)).2
  · exact ((credential_path_selection multiPathsModel "" ':' (fun s => s)).2.1
      (by decide) (by decide)).2

/-! ## C8 — explicit host overrides the credential file -/

theorem applyPostHostOverrides_server (d : ValsOperatorProviderModel)
    (o : ConfigOverrides) : (applyPostHostOverrides d o).server = o.server := by
  unfold applyPostHostOverrides
  by_cases h1 : d.username ≠ "" <;> by_cases h2 : d.password ≠ "" <;>
    by_cases h3 : d.clientKey ≠ "" <;> by_cases h4 : d.token ≠ "" <;>
    by_cases h5 : d.proxyURL ≠ "" <;> simp [h1, h2, h3, h4, h5]

theorem applyContextOverrides_tls_fields (d : ValsOperatorProviderModel)
    (o : ConfigOverrides) :
    (applyContextOverrides d o).certificateAuthorityData = o.certificateAuthorityData ∧
    (applyContextOverrides d o).clientCertificateData = o.clientCertificateData ∧
    (applyContextOverrides d o).insecureSkipTLSVerify = o.insecureSkipTLSVerify := by
  unfold applyContextOverrides
  by_cases h0 : d.configContext ≠ "" ∨ d.configContextAuthInfo ≠ "" ∨
      d.configContextCluster ≠ ""
  · by_cases h1 : d.configContext ≠ "" <;> by_cases h2 : d.configContextAuthInfo ≠ "" <;>
      by_cases h3 : d.configContextCluster ≠ "" <;> simp [h0, h1, h2, h3]
  · simp [h0]

theorem applyPreHostOverrides_tls_fields (d : ValsOperatorProviderModel)
    (o : ConfigOverrides)
    (hca : o.certificateAuthorityData = "") (hcert : o.clientCertificateData = "") :
    (applyPreHostOverrides d o).certificateAuthorityData = d.clusterCACertificate ∧
    (applyPreHostOverrides d o).clientCertificateData = d.clientCertificate ∧
    (applyPreHostOverrides d o).insecureSkipTLSVerify = d.insecure := by
  unfold applyPreHostOverrides
  by_cases h1 : d.tlsServerName ≠ "" <;> by_cases h2 : d.clusterCACertificate ≠ "" <;>
    by_cases h3 : d.clientCertificate ≠ "" <;>
    simp_all [not_not]

/-- The overrides value fed to the host step by `initializeConfiguration`. -/
def preHostState (d : ValsOperatorProviderModel) (env : String) (sep : Char) :
    ConfigOverrides :=
  applyPreHostOverrides d
    (if (selectConfigPaths d env sep).length > 0 then applyContextOverrides d emptyOverrides
     else emptyOverrides)

theorem preHostState_tls_fields (d : ValsOperatorProviderModel) (env : String)
    (sep : Char) :
    (preHostState d env sep).certificateAuthorityData = d.clusterCACertificate ∧
    (preHostState d env sep).clientCertificateData = d.clientCertificate ∧
    (preHostState d env sep).insecureSkipTLSVerify = d.insecure := by
  unfold preHostState
  by_cases h : (selectConfigPaths d env sep).length > 0
  · rw [if_pos h]
    obtain ⟨a, b, c⟩ := applyContextOverrides_tls_fields d emptyOverrides
    exact applyPreHostOverrides_tls_fields d _ a b
  · rw [if_neg h]
    exact applyPreHostOverrides_tls_fields d _ rfl rfl

/-- C8: with an explicit host configured, the resolved connection host is the
parsed explicit host, overriding whatever host the selected credential file's
current-context carries; the default-TLS flag passed to the URL parser is
computed from the already-overlaid CA bundle, client certificate and
insecure-skip-verify settings; and a host parse failure is a configuration
error. -/
theorem explicit_host_resolution
    (d : ValsOperatorProviderModel) (env : String) (sep : Char) (ex : String → String)
    (parse : String → Bool → Except String String) (fileHost hostVal : String)
    (hh : d.host ≠ "")
    (hp : parse d.host (decide (d.clusterCACertificate ≠ "" ∨
      d.clientCertificate ≠ "" ∨ d.insecure = true)) = .ok hostVal)
    (hne : hostVal ≠ "")
    (parse2 : String → Bool → Except String String) (msg : String)
    (hp2 : parse2 d.host (decide (d.clusterCACertificate ≠ "" ∨
      d.clientCertificate ≠ "" ∨ d.insecure = true)) = .error msg)
    (load2 : ClientConfigLoadingRules → ConfigOverrides → Except String RestConfig) :
    initializeConfiguration d env sep (fun p => .ok (ex p)) parse
      (loadFromFileHost fileHost) =
      .ok (some { hostURL := hostVal, userAgent := "" }) ∧
    initializeConfiguration d env sep (fun p => .ok (ex p)) parse2 load2 =
      .error ("failed to parse host: " ++ msg) := by
  obtain ⟨hca, hcert, hins⟩ := preHostState_tls_fields d env sep
  have hloader : ∃ L, resolvedLoader d env sep (fun p => .ok (ex p)) = .ok L := by
    unfold resolvedLoader
    by_cases hc : (selectConfigPaths d env sep).length > 0
    · rw [if_pos hc, expandPaths_ok]
      exact ⟨_, rfl⟩
    · rw [if_neg hc]
      exact ⟨_, rfl⟩
  obtain ⟨L, hL⟩ := hloader
  have hflag : decide ((preHostState d env sep).certificateAuthorityData ≠ "" ∨
      (preHostState d env sep).clientCertificateData ≠ "" ∨
      (preHostState d env sep).insecureSkipTLSVerify = true) =
      decide (d.clusterCACertificate ≠ "" ∨ d.clientCertificate ≠ "" ∨
        d.insecure = true) := by
    rw [hca, hcert, hins]
  have hhost : applyHostOverride d parse (preHostState d env sep) =
      .ok { preHostState d env sep with server := hostVal } := by
    unfold applyHostOverride
    rw [if_pos hh]
    simp only [hflag, hp]
  have hhost2 : applyHostOverride d parse2 (preHostState d env sep) =
      .error ("failed to parse host: " ++ msg) := by
    unfold applyHostOverride
    rw [if_pos hh]
    simp only [hflag, hp2]
  have hfold : applyPreHostOverrides d
      (if (selectConfigPaths d env sep).length > 0 then applyContextOverrides d emptyOverrides
       else emptyOverrides) = preHostState d env sep := rfl
  constructor
  · unfold initializeConfiguration
    rw [hL]
    simp only [hfold, hhost, loadFromFileHost, applyPostHostOverrides_server]
    simp [hne]
  · unfold initializeConfiguration
    rw [hL]
    simp only [hfold, hhost2]

/-- The spec's concrete scenario: an explicit host and a credential file
pointing elsewhere. -/
def explicitHostModel : ValsOperatorProviderModel :=
  { host := "https://explicit:6443", username := "", password := "", insecure := false
    tlsServerName := "", clientCertificate := "", clientKey := ""
    clusterCACertificate := "", configPaths := [], configPath := ""
    configContext := "", configContextAuthInfo := "", configContextCluster := ""
    token := "", proxyURL := "", ignoreAnnotationsCfg := [], ignoreLabelsCfg := [] }

/-- Witness for `explicit_host_resolution`: explicit host
`"https://explicit:6443"` against a file whose current-context host is
`"https://filehost:6443"` resolves to the explicit host; a failing parse is a
configuration error. -/
theorem explicit_host_resolution_witness :
    initializeConfiguration explicitHostModel "" ':' (fun p => .ok p)
      (fun s _ => .ok s) (loadFromFileHost "https://filehost:6443") =
      .ok (some { hostURL := "https://explicit:6443", userAgent := "" }) ∧
    initializeConfiguration explicitHostModel "" ':' (fun p => .ok p)
      (fun _ _ => .error "bad scheme") (loadFromFileHost "https://filehost:6443") =
      .error ("failed to parse host: " ++ "bad scheme") :=
  explicit_host_resolution explicitHostModel "" ':' (fun s => s) (fun s _ => .ok s)
    "https://filehost:6443" "https://explicit:6443" (by decide) rfl (by decide)
    (fun _ _ => .error "bad scheme") "bad scheme" rfl
    (loadFromFileHost "https://filehost:6443")

/-! ## C9 — loader failure degrades to an empty configuration -/

/-- C9: when the file-based credential loader fails outright, configuration
resolution does not abort with an error — `initializeConfiguration` reports
success with no configuration, and `Configure` substitutes the empty rest
config (tagged with the user agent), deferring the failure to first network
use. -/
theorem load_failure_degrades
    (d : ValsOperatorProviderModel) (env : String) (sep : Char) (ex : String → String)
    (parse : String → Bool → Except String String) (msg : String)
    (o2 : ConfigOverrides)
    (hhost : applyHostOverride d parse (preHostState d env sep) = .ok o2)
    (tfv : String) (render : String → String) :
    initializeConfiguration d env sep (fun p => .ok (ex p)) parse
      (fun _ _ => .error msg) = .ok none ∧
    Configure d env sep (fun p => .ok (ex p)) parse (fun _ _ => .error msg) tfv render =
      some { config := { hostURL := "", userAgent := "HashiCorp/1.0 Terraform/" ++ tfv }
             ignoreAnnotationsList :=
               d.ignoreAnnotationsCfg.map render ++ d.ignoreLabelsCfg.map render
             ignoreLabelsList := [] } := by
  have hloader : ∃ L, resolvedLoader d env sep (fun p => .ok (ex p)) = .ok L := by
    unfold resolvedLoader
    by_cases hc : (selectConfigPaths d env sep).length > 0
    · rw [if_pos hc, expandPaths_ok]
      exact ⟨_, rfl⟩
    · rw [if_neg hc]
      exact ⟨_, rfl⟩
  obtain ⟨L, hL⟩ := hloader
  have hfold : applyPreHostOverrides d
      (if (selectConfigPaths d env sep).length > 0 then applyContextOverrides d emptyOverrides
       else emptyOverrides) = preHostState d env sep := rfl
  have hinit : initializeConfiguration d env sep (fun p => .ok (ex p)) parse
      (fun _ _ => .error msg) = .ok none := by
    unfold initializeConfiguration
    rw [hL]
    simp only [hfold, hhost]
  refine ⟨hinit, ?_⟩
  unfold Configure
  rw [hinit]
  simp [emptyRestConfig]

/-- Witness for `load_failure_degrades` at `sampleProviderModel` (no host, so
the host step trivially succeeds) with a loader that always fails. -/
theorem load_failure_degrades_witness :
    initializeConfiguration sampleProviderModel "" ':' (fun p => .ok p)
      (fun s _ => .ok s) (fun _ _ => .error "no kubeconfig") = .ok none ∧
    Configure sampleProviderModel "" ':' (fun p => .ok p) (fun s _ => .ok s)
      (fun _ _ => .error "no kubeconfig") "1.9.0" id =
      some { config := { hostURL := "", userAgent := "HashiCorp/1.0 Terraform/" ++ "1.9.0" }
             ignoreAnnotationsList :=
               sampleProviderModel.ignoreAnnotationsCfg.map id ++
                 sampleProviderModel.ignoreLabelsCfg.map id
             ignoreLabelsList := [] } :=
  load_failure_degrades sampleProviderModel "" ':' (fun s => s) (fun s _ => .ok s)
    "no kubeconfig" (preHostState sampleProviderModel "" ':') rfl "1.9.0" id

end ValsOperator
